import Mathlib

/-!
Shallow embedding of the `stock_analysis` repository core:
the report-ingestion pipeline (`stocks/management/commands/import_reports.py`
together with the field normalization in `stocks/models.py`) and the four
read-only analytics computations (`stocks/views.py`).

Timestamps are modelled as natural numbers via an order-preserving encoding
of `(year, month, day, hour, minute)`; decimals are modelled as rationals;
JSON record values are modelled by the inductive `JVal`.
-/

namespace StockAnalysis

attribute [local semireducible] Rat.mul Rat.inv Rat.add Rat.sub Rat.ofScientific

instance {ε α : Type _} [DecidableEq ε] [DecidableEq α] : DecidableEq (Except ε α) := fun x y =>
  match x, y with
  | .ok a, .ok b =>
    if h : a = b then isTrue (congrArg Except.ok h)
    else isFalse fun hh => h (Except.ok.inj hh)
  | .error a, .error b =>
    if h : a = b then isTrue (congrArg Except.error h)
    else isFalse fun hh => h (Except.error.inj hh)
  | .ok _, .error _ => isFalse fun hh => Except.noConfusion hh
  | .error _, .ok _ => isFalse fun hh => Except.noConfusion hh

/-- Python `str.strip()` at character level. -/
def trimChars (cs : List Char) : List Char :=
  ((cs.dropWhile Char.isWhitespace).reverse.dropWhile Char.isWhitespace).reverse

/-- Python `str.strip()`. -/
def pyStrip (s : String) : String :=
  ⟨trimChars s.data⟩

/-- Python `str.upper()` (ASCII, which covers the identifier fields). -/
def pyUpper (s : String) : String :=
  ⟨s.data.map Char.toUpper⟩

/-- A JSON-like value as it appears in one imported record. -/
inductive JVal where
  | jnull
  | jstr (s : String)
  | jnum (q : ℚ)
  | jlist (xs : List String)
deriving DecidableEq

/-- One source record: the key/value pairs of one JSON object, in iteration
order (keys are distinct in an actual JSON object). -/
abbrev Record := List (String × JVal)

/-- Python `item.get(k)`: first binding of the key, if present. -/
def jget (item : Record) (k : String) : Option JVal :=
  (item.find? fun p => p.1 == k).map Prod.snd

/-- Python `item.get(k, d)`. -/
def jgetD (item : Record) (k : String) (d : JVal) : JVal :=
  (jget item k).getD d

/-- Python `v in ("", None)`. -/
def isEmptyVal (v : JVal) : Bool :=
  v == .jnull || v == .jstr ""

/-- `item.get(k, "") or ""` for string-typed fields. -/
def getStr (item : Record) (k : String) : String :=
  match jget item k with
  | some (.jstr s) => s
  | _ => ""

/-- `item.get("Currency", "USD") or "USD"`. -/
def getCurrency (item : Record) : String :=
  match jget item "Currency" with
  | some (.jstr s) => if s == "" then "USD" else s
  | _ => "USD"

/-- `item.get(k, []) or []` for list-typed fields. -/
def getList (item : Record) (k : String) : List String :=
  match jget item k with
  | some (.jlist xs) => xs
  | _ => []

/-- Numeric value of a digit list, most significant first. -/
def digitsToNat (cs : List Char) : Nat :=
  cs.foldl (fun a c => a * 10 + (c.toNat - 48)) 0

/-- Exponent tail of a decimal literal: empty, or `e`/`E` with an optional
sign and at least one digit. -/
def parseExp (cs : List Char) : Option ℤ :=
  match cs with
  | [] => some 0
  | e :: rest =>
    if e == 'e' || e == 'E' then
      match rest with
      | '+' :: ds =>
        let (xs, r) := ds.span Char.isDigit
        if xs.length = 0 || r ≠ [] then none else some (digitsToNat xs : ℤ)
      | '-' :: ds =>
        let (xs, r) := ds.span Char.isDigit
        if xs.length = 0 || r ≠ [] then none else some (-(digitsToNat xs : ℤ))
      | ds =>
        let (xs, r) := ds.span Char.isDigit
        if xs.length = 0 || r ≠ [] then none else some (digitsToNat xs : ℤ)
    else none

/-- `Decimal(s)` on a (stripped) numeric literal: optional sign, digits with
an optional fractional part (at least one digit overall), optional exponent.
`none` models `decimal.InvalidOperation`. -/
def parseDecimal (s : String) : Option ℚ :=
  let cs := trimChars s.data
  let signed : ℚ × List Char :=
    match cs with
    | '+' :: t => (1, t)
    | '-' :: t => (-1, t)
    | _ => (1, cs)
  let (ip, cs2) := signed.2.span Char.isDigit
  match cs2 with
  | '.' :: cs3 =>
    let (fp, cs4) := cs3.span Char.isDigit
    if ip.length + fp.length = 0 then none
    else
      match parseExp cs4 with
      | some e =>
        some (signed.1 * (digitsToNat (ip ++ fp) : ℚ) / ((10 : ℚ) ^ fp.length) * (10 : ℚ) ^ e)
      | none => none
  | rest =>
    if ip.length = 0 then none
    else
      match parseExp rest with
      | some e => some (signed.1 * (digitsToNat ip : ℚ) * (10 : ℚ) ^ e)
      | none => none

/-- `to_decimal(v)`: `None if v in ("", None) else Decimal(str(v))`; a raised
`InvalidOperation` is the `Except.error` case. -/
def to_decimal (v : JVal) : Except Unit (Option ℚ) :=
  match v with
  | .jnull => .ok none
  | .jnum q => .ok (some q)
  | .jstr s => if s == "" then .ok none else
      match parseDecimal s with
      | some q => .ok (some q)
      | none => .error ()
  | .jlist _ => .error ()

/-- Splitting on whitespace runs at character level: `acc` holds the current
token's characters in reverse. -/
def splitWsAux : List Char → List Char → List String
  | [], acc => if acc.isEmpty then [] else [⟨acc.reverse⟩]
  | c :: cs, acc =>
    if c.isWhitespace then
      if acc.isEmpty then splitWsAux cs [] else ⟨acc.reverse⟩ :: splitWsAux cs []
    else splitWsAux cs (c :: acc)

/-- Python `str.split()`: split on whitespace runs, dropping empty pieces. -/
def splitWs (s : String) : List String :=
  splitWsAux s.data []

/-- `parse_ticker_region`: first two whitespace-separated tokens of the
`Ticker` string; `none` models the raised/caught per-record failure (including
a non-string value, whose `.split()` raises and is caught). -/
def parse_ticker_region (v : JVal) : Option (String × String) :=
  match v with
  | .jstr s =>
    match splitWs s with
    | t :: r :: _ => some (t, r)
    | _ => none
  | _ => none

/-- Days of a month, with Gregorian leap years, as validated by
`datetime.strptime`. -/
def daysInMonth (y mo : Nat) : Nat :=
  if mo = 2 then
    if y % 4 = 0 && (y % 100 ≠ 0 || y % 400 = 0) then 29 else 28
  else if mo = 4 || mo = 6 || mo = 9 || mo = 11 then 30 else 31

/-- Order-preserving encoding of a calendar instant (minute precision). -/
def tsEncode (y mo d h mi : Nat) : Nat :=
  (((y * 13 + mo) * 32 + d) * 24 + h) * 60 + mi

/-- `datetime.strptime(ts, "%Y-%m-%d_%H-%M")`: four year digits, one or two
digits for month/day/hour/minute with their range checks, and the calendar
validity checks performed by the `datetime` constructor. -/
def parseTs (s : String) : Option Nat :=
  let (ys, r1) := s.toList.span Char.isDigit
  if ys.length ≠ 4 then none else
  match r1 with
  | '-' :: r2 =>
    let (ms, r3) := r2.span Char.isDigit
    if ms.length = 0 || 2 < ms.length then none else
    let mo := digitsToNat ms
    if mo < 1 || 12 < mo then none else
    match r3 with
    | '-' :: r4 =>
      let (dcs, r5) := r4.span Char.isDigit
      if dcs.length = 0 || 2 < dcs.length then none else
      let d := digitsToNat dcs
      if d < 1 || 31 < d then none else
      match r5 with
      | '_' :: r6 =>
        let (hs, r7) := r6.span Char.isDigit
        if hs.length = 0 || 2 < hs.length then none else
        let h := digitsToNat hs
        if 23 < h then none else
        match r7 with
        | '-' :: r8 =>
          let (mis, r9) := r8.span Char.isDigit
          if mis.length = 0 || 2 < mis.length then none else
          let mi := digitsToNat mis
          if 59 < mi then none else
          if r9 ≠ [] then none else
          let y := digitsToNat ys
          if y < 1 then none else
          if daysInMonth y mo < d then none else
          some (tsEncode y mo d h mi)
        | _ => none
      | _ => none
    | _ => none
  | _ => none

/-- `parse_timestamp`: a falsy value yields the current instant `now`;
a string is parsed with `parseTs`; a non-string raises (caught per record). -/
def parse_timestamp (v : JVal) (now : Nat) : Option Nat :=
  match v with
  | .jnull => some now
  | .jstr s => if s == "" then some now else parseTs s
  | _ => none

/-- `UppercaseCharField.normalize`: empty passes through, otherwise strip and
uppercase. -/
def normalize_id (s : String) : String :=
  if s == "" then s else pyUpper (pyStrip s)

/-- `NormalizedRatingField.normalize`: strip, uppercase, collapse whitespace
runs to a single underscore. -/
def normalize_rating (s : String) : String :=
  if s == "" then s else "_".intercalate (splitWs (pyUpper (pyStrip s)))

/-- `EPS_YEAR_RE`: `^(20\d{2})(?:E)?_EPS$`, yielding the literal year. -/
def epsYearPat (cs : List Char) : Option Nat :=
  match cs with
  | '2' :: '0' :: a :: b :: rest =>
    if a.isDigit && b.isDigit && (rest == "_EPS".toList || rest == "E_EPS".toList) then
      some (2000 + 10 * (a.toNat - 48) + (b.toNat - 48))
    else none
  | _ => none

/-- `EPS_CODE_RE`: `^(\d{3})_EPS$`, yielding the 3-digit code. -/
def epsCodePat (cs : List Char) : Option Nat :=
  match cs with
  | a :: b :: c :: rest =>
    if a.isDigit && b.isDigit && c.isDigit && rest == "_EPS".toList then
      some (100 * (a.toNat - 48) + 10 * (b.toNat - 48) + (c.toNat - 48))
    else none
  | _ => none

/-- `extract_eps_year`: year pattern first, else 3-digit code plus 1700. -/
def extract_eps_year (key : String) : Option Nat :=
  match epsYearPat key.toList with
  | some y => some y
  | none => (epsCodePat key.toList).map (· + 1700)

/-- `^20\d{2}E_EPS$`. -/
def isPri3 (cs : List Char) : Bool :=
  match cs with
  | '2' :: '0' :: a :: b :: rest => a.isDigit && b.isDigit && rest == "E_EPS".toList
  | _ => false

/-- `^20\d{2}_EPS$`. -/
def isPri2 (cs : List Char) : Bool :=
  match cs with
  | '2' :: '0' :: a :: b :: rest => a.isDigit && b.isDigit && rest == "_EPS".toList
  | _ => false

/-- `^\d{3}_EPS$`. -/
def isPri1 (cs : List Char) : Bool :=
  match cs with
  | a :: b :: c :: rest => a.isDigit && b.isDigit && c.isDigit && rest == "_EPS".toList
  | _ => false

/-- `eps_priority`: higher is better. -/
def eps_priority (key : String) : Nat :=
  if isPri3 key.toList then 3
  else if isPri2 key.toList then 2
  else if isPri1 key.toList then 1
  else 0

/-- The resolver state: for each year already seen, its winning priority and
value (the pair of dicts `eps_by_year` / `eps_source_pri`). -/
abbrev EpsState := List (Nat × Nat × ℚ)

/-- Priority and value currently stored for a year. -/
def lookupYear (st : EpsState) (year : Nat) : Option (Nat × ℚ) :=
  (st.find? fun e => e.1 == year).map Prod.snd

/-- Replace the entry of an already-present year. -/
def updateYear (st : EpsState) (year : Nat) (pv : Nat × ℚ) : EpsState :=
  st.map fun e => if e.1 == year then (year, pv) else e

/-- One iteration of the EPS loop in `Command.handle`: skip keys that are not
EPS keys or whose value is empty/absent; otherwise store the value when the
year is new or the key's priority strictly beats the stored one, parsing the
value only in that winning case (a parse failure raises). -/
def epsStep (st : EpsState) (kv : String × JVal) : Except Unit EpsState :=
  match extract_eps_year kv.1 with
  | none => .ok st
  | some year =>
    if isEmptyVal kv.2 then .ok st else
    let pri := eps_priority kv.1
    match lookupYear st year with
    | none => do
      let q? ← to_decimal kv.2
      match q? with
      | none => .ok st
      | some q => .ok (st ++ [(year, pri, q)])
    | some pv =>
      if pri > pv.1 then do
        let q? ← to_decimal kv.2
        match q? with
        | none => .ok st
        | some q => .ok (updateYear st year (pri, q))
      else .ok st

/-- Insert into a list sorted by `le`. -/
def insertBy (le : α → α → Bool) (a : α) : List α → List α
  | [] => [a]
  | b :: l => if le a b then a :: b :: l else b :: insertBy le a l

/-- Insertion sort by `le` (models Python `sorted` / SQL `ORDER BY`). -/
def sortBy (le : α → α → Bool) (l : List α) : List α :=
  l.foldr (insertBy le) []

/-- `eps_rows = sorted(eps_by_year.items())`: fold the record's key/value
pairs through `epsStep` and sort the resulting (year, value) pairs by year. -/
def resolve_eps (item : Record) : Except Unit (List (Nat × ℚ)) :=
  match item.foldlM epsStep [] with
  | .error e => .error e
  | .ok st => .ok (sortBy (fun a b => decide (a.1 ≤ b.1)) (st.map fun e => (e.1, e.2.2)))

/-- The takeaway rows built for a new report:
`[(i, text) for i, text in enumerate(key_takeaways) if text]`. -/
def takeawayPairs (kts : List String) : List (Nat × String) :=
  kts.enum.filter fun p => p.2 != ""

/-- A record after the parsing phase of `Command.handle`, before the
database writes. -/
structure ParsedRec where
  ticker : String
  region : String
  company : String
  currency : String
  as_of : Nat
  link : String
  blurb : String
  rating : String
  analyst_team : String
  report_subtitle : String
  raw_text : List String
  price : Option ℚ
  price_objective : Option ℚ
  upside : Option ℚ
  average_daily_value : Option ℚ
  market_cap : Option ℚ
  takeaways : List (Nat × String)
  epsRows : List (Nat × ℚ)
deriving DecidableEq

/-- The `report_defaults` decimal fields, in source order; a parse failure
raises out of the record loop. -/
def buildNums (item : Record) :
    Except Unit (Option ℚ × Option ℚ × Option ℚ × Option ℚ × Option ℚ) := do
  let p ← to_decimal (jgetD item "Price" .jnull)
  let po ← to_decimal (jgetD item "Price_Objective" .jnull)
  let u ← to_decimal (jgetD item "Upside" .jnull)
  let adv ← to_decimal (jgetD item "Average_Daily_Value" .jnull)
  let mc ← to_decimal (jgetD item "Market_Cap" .jnull)
  pure (p, po, u, adv, mc)

/-- The parsing phase for one record. `.ok none` is the caught ticker or
timestamp failure (record skipped, processing continues); `.error` is an
uncaught decimal failure (aborts the run). -/
def parseRecord (now : Nat) (item : Record) : Except Unit (Option ParsedRec) :=
  match parse_ticker_region (jgetD item "Ticker" (.jstr "")) with
  | none => .ok none
  | some tr =>
    match parse_timestamp (jgetD item "Timestamp" .jnull) now with
    | none => .ok none
    | some ts => do
      let nums ← buildNums item
      let eps ← resolve_eps item
      pure (some
        { ticker := tr.1
          region := tr.2
          company := getStr item "Company"
          currency := getCurrency item
          as_of := ts
          link := getStr item "Link"
          blurb := getStr item "Blurb"
          rating := getStr item "Rating"
          analyst_team := getStr item "Analyst_Team"
          report_subtitle := getStr item "Report_Subtitle"
          raw_text := getList item "Raw_Text"
          price := nums.1
          price_objective := nums.2.1
          upside := nums.2.2.1
          average_daily_value := nums.2.2.2.1
          market_cap := nums.2.2.2.2
          takeaways := takeawayPairs (getList item "Key_Takeaways")
          epsRows := eps })

/-- A persisted `Stock` row (fields already normalized by the model fields). -/
structure StockRow where
  ticker : String
  region : String
  company_name : String
  currency_code : String
deriving DecidableEq

/-- A persisted `DailyReport` row, identified by its stock key and instant. -/
structure ReportRow where
  sticker : String
  sregion : String
  as_of : Nat
  link : String
  blurb : String
  rating : String
  analyst_team : String
  report_subtitle : String
  raw_text : List String
  price : Option ℚ
  price_objective : Option ℚ
  upside : Option ℚ
  average_daily_value : Option ℚ
  market_cap : Option ℚ
deriving DecidableEq

/-- A persisted `ReportKeyTakeaway` row. -/
structure TakeawayRow where
  sticker : String
  sregion : String
  as_of : Nat
  order : Nat
  text : String
deriving DecidableEq

/-- A persisted `EPSForecast` row. -/
structure EpsRow where
  sticker : String
  sregion : String
  as_of : Nat
  year : Nat
  eps : ℚ
deriving DecidableEq

/-- The persistent store. -/
structure DB where
  stocks : List StockRow
  reports : List ReportRow
  takeaways : List TakeawayRow
  eps : List EpsRow
deriving DecidableEq

def emptyDB : DB := ⟨[], [], [], []⟩

/-- The unique key a record's stock is looked up and stored under:
`UppercaseCharField` normalizes both the lookup value and the saved value. -/
def stockKeyOf (p : ParsedRec) : String × String :=
  (normalize_id p.ticker, normalize_id p.region)

def hasStock (db : DB) (k : String × String) : Bool :=
  db.stocks.any fun s => s.ticker == k.1 && s.region == k.2

def hasReport (db : DB) (k : String × String) (ts : Nat) : Bool :=
  db.reports.any fun r => r.sticker == k.1 && r.sregion == k.2 && r.as_of == ts

/-- The `DailyReport` row saved for a newly created report (the rating field
is normalized by `NormalizedRatingField.pre_save`). -/
def mkReportRow (k : String × String) (p : ParsedRec) : ReportRow :=
  { sticker := k.1
    sregion := k.2
    as_of := p.as_of
    link := p.link
    blurb := p.blurb
    rating := normalize_rating p.rating
    analyst_team := p.analyst_team
    report_subtitle := p.report_subtitle
    raw_text := p.raw_text
    price := p.price
    price_objective := p.price_objective
    upside := p.upside
    average_daily_value := p.average_daily_value
    market_cap := p.market_cap }

/-- `Stock.objects.get_or_create(ticker=..., region=..., defaults=...)`:
the lookup and the saved row both go through the field normalization;
descriptive fields are seeded only when the stock is created. -/
def ensureStock (db : DB) (p : ParsedRec) : DB :=
  if hasStock db (stockKeyOf p) then db
  else
    { db with
        stocks := db.stocks ++
          [⟨(stockKeyOf p).1, (stockKeyOf p).2, p.company, normalize_id p.currency⟩] }

/-- The writes performed when the report is newly created: the report row and
the bulk-created takeaway and EPS child rows. -/
def insertReport (db : DB) (p : ParsedRec) : DB :=
  { db with
      reports := db.reports ++ [mkReportRow (stockKeyOf p) p]
      takeaways := db.takeaways ++
        p.takeaways.map fun q => ⟨(stockKeyOf p).1, (stockKeyOf p).2, p.as_of, q.1, q.2⟩
      eps := db.eps ++
        p.epsRows.map fun e => ⟨(stockKeyOf p).1, (stockKeyOf p).2, p.as_of, e.1, e.2⟩ }

/-- The transactional write phase of one record: `get_or_create` the stock,
`get_or_create` the report by (stock, as_of) — a no-op when the key exists —
and on creation insert the children. Returns the new store and whether the
report was created. -/
def applyParsed (db : DB) (p : ParsedRec) : DB × Bool :=
  if hasReport (ensureStock db p) (stockKeyOf p) p.as_of then (ensureStock db p, false)
  else (insertReport (ensureStock db p) p, true)

/-- How one record ended. -/
inductive Outcome where
  | parseFail
  | dryParsed
  | created
  | skipped
deriving DecidableEq

/-- One iteration of the record loop of `Command.handle`. -/
def importRecord (now : Nat) (dry : Bool) (db : DB) (item : Record) :
    Except Unit (DB × Outcome) :=
  match parseRecord now item with
  | .error e => .error e
  | .ok none => .ok (db, .parseFail)
  | .ok (some p) =>
    if dry then .ok (db, .dryParsed)
    else
      match applyParsed db p with
      | (db', true) => .ok (db', .created)
      | (db', false) => .ok (db', .skipped)

/-- The run counters `total_reports` / `created_reports` / `skipped_reports`. -/
structure Counts where
  parsed : Nat
  created : Nat
  skipped : Nat
deriving DecidableEq

/-- Counter contribution of one record. -/
def outCounts : Outcome → Counts
  | .parseFail => ⟨1, 0, 0⟩
  | .dryParsed => ⟨1, 0, 0⟩
  | .created => ⟨1, 1, 0⟩
  | .skipped => ⟨1, 0, 1⟩

def addCounts (a b : Counts) : Counts :=
  ⟨a.parsed + b.parsed, a.created + b.created, a.skipped + b.skipped⟩

/-- Result of importing one document. -/
structure RunResult where
  db : DB
  counts : Counts
  aborted : Bool
deriving DecidableEq

/-- The record loop over one document's list of records. An uncaught
exception stops the loop (the store keeps the rows committed so far). -/
def runDoc (now : Nat) (dry : Bool) (db : DB) : List Record → RunResult
  | [] => ⟨db, ⟨0, 0, 0⟩, false⟩
  | item :: rest =>
    match importRecord now dry db item with
    | .error _ => ⟨db, ⟨1, 0, 0⟩, true⟩
    | .ok (db', o) =>
      let res := runDoc now dry db' rest
      ⟨res.db, addCounts (outCounts o) res.counts, res.aborted⟩

/-! ## The analytics views (`stocks/views.py`) -/

/-- A `Stock` row as the views see it. -/
structure VStock where
  id : Nat
  ticker : String
deriving DecidableEq

/-- A `DailyReport` row as the views see it. -/
structure VReport where
  sid : Nat
  ts : Nat
  rating : String
  upside : Option ℚ
  price : Option ℚ
  price_objective : Option ℚ
deriving DecidableEq

/-- Upsides of a stock's reports matching
`Q(reports__as_of_timestamp__gte=start, reports__upside__isnull=False)`. -/
def qUpsides (start : Nat) (reports : List VReport) (sid : Nat) : List ℚ :=
  reports.filterMap fun r =>
    if r.sid == sid && decide (start ≤ r.ts) then r.upside else none

def listMax : List ℚ → Option ℚ
  | [] => none
  | q :: qs => some (qs.foldl max q)

/-- The `max_upside` annotation. -/
def max_upside (start : Nat) (reports : List VReport) (sid : Nat) : Option ℚ :=
  listMax (qUpsides start reports sid)

/-- The top-upside queryset: annotate each stock with `max_upside`, drop the
null ones, order descending by it, take the first `limit`. -/
def top_upside (start limit : Nat) (stocks : List VStock) (reports : List VReport) :
    List (VStock × ℚ) :=
  (sortBy (fun a b => decide (b.2 ≤ a.2))
    (stocks.filterMap fun s => (max_upside start reports s.id).map fun m => (s, m))).take limit

/-- Written from the spec's words for comparison: the ranking metric uses
only reports with `as_of_timestamp` within the closed window
`[now - window, now]`. -/
def specWindow_max_upside (now window : Nat) (reports : List VReport) (sid : Nat) :
    Option ℚ :=
  listMax (reports.filterMap fun r =>
    if r.sid == sid && decide (now - window ≤ r.ts) && decide (r.ts ≤ now) then
      r.upside
    else none)

/-- Written from the spec's words for comparison: top-upside ranking over the
closed window `[now - window, now]`. -/
def specWindow_top_upside (now window limit : Nat) (stocks : List VStock)
    (reports : List VReport) : List (VStock × ℚ) :=
  (sortBy (fun a b => decide (b.2 ≤ a.2))
    (stocks.filterMap fun s =>
      (specWindow_max_upside now window reports s.id).map fun m => (s, m))).take limit

/-- The correlated subquery's candidate rows: same stock, strictly earlier. -/
def prevCandidates (reports : List VReport) (r : VReport) : List VReport :=
  reports.filter fun x => x.sid == r.sid && decide (x.ts < r.ts)

/-- `order_by("-as_of_timestamp")[:1]`: a row with the greatest timestamp. -/
def latestOf : List VReport → Option VReport
  | [] => none
  | x :: xs => some (xs.foldl (fun m y => if m.ts < y.ts then y else m) x)

/-- `prev_rating`: rating of the immediately preceding report of the same
stock, coalesced to the empty string. -/
def prev_rating (reports : List VReport) (r : VReport) : String :=
  match latestOf (prevCandidates reports r) with
  | some x => x.rating
  | none => ""

/-- The `recent_downgrades` queryset: `UNDERPERFORM` reports whose previous
rating is `BUY` or `NEUTRAL`, newest first, first five. -/
def recent_downgrades (reports : List VReport) : List VReport :=
  (sortBy (fun a b => decide (b.ts ≤ a.ts))
    (reports.filter fun r =>
      r.rating == "UNDERPERFORM" &&
        (prev_rating reports r == "BUY" || prev_rating reports r == "NEUTRAL"))).take 5

def CHART_MAX_POINTS : Nat := 60

/-- One stock's chart points: reports from `start_dt` with at least one of
price / price objective present, ordered by ascending timestamp. -/
def seriesPoints (start : Nat) (reports : List VReport) (sid : Nat) :
    List (Nat × Option ℚ × Option ℚ) :=
  (sortBy (fun a b => decide (a.ts ≤ b.ts))
    (reports.filter fun r =>
      r.sid == sid && decide (start ≤ r.ts) &&
        !(r.price == none && r.price_objective == none))).map
    fun r => (r.ts, r.price, r.price_objective)

/-- `_build_price_series`: per requested stock, its chart points capped to
the last `CHART_MAX_POINTS` (`points[-CHART_MAX_POINTS:]`). -/
def build_price_series (ids : List Nat) (start : Nat) (reports : List VReport) :
    List (Nat × List (Nat × Option ℚ × Option ℚ)) :=
  ids.map fun sid =>
    let pts := seriesPoints start reports sid
    (sid, if CHART_MAX_POINTS < pts.length then pts.drop (pts.length - CHART_MAX_POINTS) else pts)

/-! ## Generic lemmas about the insertion sort -/

theorem mem_insertBy (le : α → α → Bool) (a x : α) (l : List α) :
    x ∈ insertBy le a l ↔ x = a ∨ x ∈ l := by
  induction l with
  | nil => simp [insertBy]
  | cons b l ih =>
    simp only [insertBy]
    split
    · simp
    · simp only [List.mem_cons, ih]
      tauto

theorem perm_insertBy (le : α → α → Bool) (a : α) (l : List α) :
    (insertBy le a l).Perm (a :: l) := by
  induction l with
  | nil => exact List.Perm.refl _
  | cons b l ih =>
    simp only [insertBy]
    split
    · exact List.Perm.refl _
    · exact (ih.cons b).trans (List.Perm.swap a b l)

theorem perm_sortBy (le : α → α → Bool) (l : List α) : (sortBy le l).Perm l := by
  induction l with
  | nil => exact List.Perm.refl _
  | cons a l ih => exact (perm_insertBy le a (sortBy le l)).trans (ih.cons a)

theorem mem_sortBy (le : α → α → Bool) (x : α) (l : List α) :
    x ∈ sortBy le l ↔ x ∈ l :=
  (perm_sortBy le l).mem_iff

theorem pairwise_insertBy (le : α → α → Bool)
    (htot : ∀ a b, le a b = true ∨ le b a = true)
    (htr : ∀ a b c, le a b = true → le b c = true → le a c = true)
    (a : α) (l : List α) (h : l.Pairwise fun x y => le x y = true) :
    (insertBy le a l).Pairwise fun x y => le x y = true := by
  induction l with
  | nil => simp [insertBy]
  | cons b l ih =>
    rcases List.pairwise_cons.mp h with ⟨hb, hl⟩
    simp only [insertBy]
    by_cases hab : le a b = true
    · rw [if_pos hab]
      refine List.pairwise_cons.mpr ⟨?_, h⟩
      intro y hy
      rcases List.mem_cons.mp hy with rfl | hyl
      · exact hab
      · exact htr a b y hab (hb y hyl)
    · rw [if_neg hab]
      have hba : le b a = true := (htot a b).resolve_left hab
      refine List.pairwise_cons.mpr ⟨?_, ih hl⟩
      intro y hy
      rcases (mem_insertBy le a y l).mp hy with rfl | hyl
      · exact hba
      · exact hb y hyl

theorem pairwise_sortBy (le : α → α → Bool)
    (htot : ∀ a b, le a b = true ∨ le b a = true)
    (htr : ∀ a b c, le a b = true → le b c = true → le a c = true)
    (l : List α) :
    (sortBy le l).Pairwise fun x y => le x y = true := by
  induction l with
  | nil => simp [sortBy]
  | cons a l ih => exact pairwise_insertBy le htot htr a (sortBy le l) ih

/-! ## Lemmas about `enumFrom` used for takeaway ordering -/

theorem fst_le_of_mem_enumFrom {p : Nat × α} :
    ∀ {n : Nat} {l : List α}, p ∈ List.enumFrom n l → n ≤ p.1 := by
  intro n l
  induction l generalizing n with
  | nil => intro h; cases h
  | cons a l ih =>
    intro h
    rcases List.mem_cons.mp h with rfl | h2
    · exact Nat.le_refl _
    · exact Nat.le_of_succ_le (ih h2)

theorem pairwise_fst_lt_enumFrom (n : Nat) (l : List α) :
    (List.enumFrom n l).Pairwise fun p q => p.1 < q.1 := by
  induction l generalizing n with
  | nil => exact List.Pairwise.nil
  | cons a l ih =>
    refine List.pairwise_cons.mpr ⟨?_, ih (n + 1)⟩
    intro q hq
    exact Nat.lt_of_succ_le (fst_le_of_mem_enumFrom hq)

theorem enumFrom_filter_snd (kts : List String) :
    ∀ n : Nat,
      ((List.enumFrom n kts).filter fun p => p.2 != "").map Prod.snd =
        kts.filter fun t => t != "" := by
  induction kts with
  | nil => intro n; rfl
  | cons a l ih =>
    intro n
    cases h : (a != "") <;>
      simp [List.enumFrom, List.filter_cons, h, ih (n + 1)]

/-! ## C2: the EPS resolver -/

/-- C2: the EPS resolver recognizes the three key patterns
(`2027E_EPS`, `2027_EPS`, 3-digit `327_EPS` mapping to code + 1700, so
`325_EPS` resolves to year 2025) with priorities 3/2/1; for the record with
keys `2027E_EPS=1.1`, `2027_EPS=1.0`, `327_EPS=0.9` (in every iteration
order) the resolved year-2027 value is 1.1; `325_EPS=2.2` alone resolves to
(2025, 2.2); keys matching no pattern and keys with empty/absent values are
ignored; and the output is sorted ascending by year. -/
theorem c2_eps_resolver :
    extract_eps_year "2027E_EPS" = some 2027 ∧
    extract_eps_year "2027_EPS" = some 2027 ∧
    extract_eps_year "325_EPS" = some 2025 ∧
    extract_eps_year "327_EPS" = some 2027 ∧
    eps_priority "2027E_EPS" = 3 ∧
    eps_priority "2027_EPS" = 2 ∧
    eps_priority "327_EPS" = 1 ∧
    (∀ l ∈ [
        [("2027E_EPS", JVal.jstr "1.1"), ("2027_EPS", JVal.jstr "1.0"), ("327_EPS", JVal.jstr "0.9")],
        [("2027E_EPS", JVal.jstr "1.1"), ("327_EPS", JVal.jstr "0.9"), ("2027_EPS", JVal.jstr "1.0")],
        [("2027_EPS", JVal.jstr "1.0"), ("2027E_EPS", JVal.jstr "1.1"), ("327_EPS", JVal.jstr "0.9")],
        [("2027_EPS", JVal.jstr "1.0"), ("327_EPS", JVal.jstr "0.9"), ("2027E_EPS", JVal.jstr "1.1")],
        [("327_EPS", JVal.jstr "0.9"), ("2027E_EPS", JVal.jstr "1.1"), ("2027_EPS", JVal.jstr "1.0")],
        [("327_EPS", JVal.jstr "0.9"), ("2027_EPS", JVal.jstr "1.0"), ("2027E_EPS", JVal.jstr "1.1")]],
      resolve_eps l = .ok [(2027, (11 : ℚ)/10)]) ∧
    resolve_eps [("325_EPS", JVal.jstr "2.2")] = .ok [(2025, (11 : ℚ)/5)] ∧
    (∀ st k v, extract_eps_year k = none → epsStep st (k, v) = .ok st) ∧
    (∀ st k v, isEmptyVal v = true → epsStep st (k, v) = .ok st) ∧
    (∀ item rows, resolve_eps item = .ok rows → rows.Pairwise fun a b => a.1 ≤ b.1) := by
  refine ⟨by decide, by decide, by decide, by decide, by decide, by decide, by decide,
    by decide, by decide, ?_, ?_, ?_⟩
  · intro st k v h
    simp [epsStep, h]
  · intro st k v h
    cases hy : extract_eps_year k with
    | none => simp [epsStep, hy]
    | some year => simp [epsStep, hy, h]
  · intro item rows h
    cases hst : item.foldlM epsStep ([] : EpsState) with
    | error e => simp [resolve_eps, hst] at h
    | ok st =>
      simp only [resolve_eps, hst, Except.ok.injEq] at h
      subst h
      have hp := pairwise_sortBy (fun a b : Nat × ℚ => decide (a.1 ≤ b.1))
        (fun a b => by
          rcases Nat.le_total a.1 b.1 with h | h
          · exact Or.inl (decide_eq_true h)
          · exact Or.inr (decide_eq_true h))
        (fun a b c hab hbc =>
          decide_eq_true (Nat.le_trans (of_decide_eq_true hab) (of_decide_eq_true hbc)))
        (st.map fun e => (e.1, e.2.2))
      exact hp.imp fun h => of_decide_eq_true h

/-- C2 witness: the hypothesis-bearing conjuncts of `c2_eps_resolver`
instantiated at concrete inputs. -/
theorem c2_eps_resolver_witness :
    epsStep [] ("Ticker", JVal.jstr "COP US") = .ok [] ∧
    epsStep [(2025, 1, (1 : ℚ))] ("2026_EPS", JVal.jnull) = .ok [(2025, 1, (1 : ℚ))] ∧
    [((2025 : Nat), (11 : ℚ)/5)].Pairwise (fun a b => a.1 ≤ b.1) :=
  ⟨c2_eps_resolver.2.2.2.2.2.2.2.2.2.1 [] "Ticker" (JVal.jstr "COP US") (by decide),
   c2_eps_resolver.2.2.2.2.2.2.2.2.2.2.1 [(2025, 1, (1 : ℚ))] "2026_EPS" JVal.jnull (by decide),
   c2_eps_resolver.2.2.2.2.2.2.2.2.2.2.2 [("325_EPS", JVal.jstr "2.2")]
     [(2025, (11 : ℚ)/5)] (by decide)⟩

/-! ## C3: the equal-priority tie-break -/

/-- C3 counterexample: with two equal-priority (priority 3) keys for year
2027 carrying 1.1 then 2.2, the stored value is the earlier 1.1, not the
later 2.2 — the later-encountered key does not win the tie. -/
theorem c3_counterexample :
    resolve_eps [("2027E_EPS", JVal.jstr "1.1"), ("2027E_EPS", JVal.jstr "2.2")] =
      .ok [(2027, (11 : ℚ)/10)] ∧
    ¬ resolve_eps [("2027E_EPS", JVal.jstr "1.1"), ("2027E_EPS", JVal.jstr "2.2")] =
      .ok [(2027, (11 : ℚ)/5)] := by
  constructor
  · decide
  · decide

/-- C3 amended: replacement requires a strictly higher priority
(`pri > eps_source_pri[year]`), so when a later key of the record resolves to
an already-stored year with the same priority, the resolver keeps the
earlier-encountered key's value and the state is unchanged. -/
theorem c3_amended (st : EpsState) (k : String) (v : JVal) (year p : Nat) (q : ℚ)
    (hy : extract_eps_year k = some year)
    (hl : lookupYear st year = some (p, q))
    (hp : eps_priority k = p) :
    epsStep st (k, v) = .ok st := by
  simp [epsStep, hy, hl, hp, Nat.lt_irrefl]

/-- C3 witness: the amended theorem at a concrete tying input. -/
theorem c3_amended_witness :
    epsStep [(2027, 3, (11 : ℚ)/10)] ("2027E_EPS", JVal.jstr "2.2") =
      .ok [(2027, 3, (11 : ℚ)/10)] :=
  c3_amended [(2027, 3, (11 : ℚ)/10)] "2027E_EPS" (JVal.jstr "2.2") 2027 3 ((11 : ℚ)/10)
    (by decide) (by decide) (by decide)

/-! ## C4: takeaway ordering -/

/-- The single-record document with takeaways `["a", "", "b"]` used to settle
the takeaway-ordering claim. -/
def c4_doc : List Record :=
  [[("Ticker", JVal.jstr "COP US"), ("Timestamp", JVal.jstr "2026-01-16_13-48"),
    ("Key_Takeaways", JVal.jlist ["a", "", "b"])]]

/-- C4 counterexample: importing the takeaway list `["a", "", "b"]` persists
two rows with orders 0 and 2 (the source indices), not the contiguous 0 and
1 that the claim states. -/
theorem c4_counterexample :
    ((runDoc 0 false emptyDB c4_doc).db.takeaways.map fun t => (t.order, t.text)) =
      [(0, "a"), (2, "b")] ∧
    ((runDoc 0 false emptyDB c4_doc).db.takeaways.map fun t => (t.order, t.text)) ≠
      [(0, "a"), (1, "b")] := by
  constructor
  · decide
  · decide

/-- C4 amended: empty entries are dropped and each kept takeaway's order is
its index in the original source list (so orders strictly increase and
source order is preserved, but they are not re-packed contiguously):
the kept texts are exactly the non-empty entries in source order, orders are
strictly increasing, and no empty text is stored. -/
theorem c4_amended (kts : List String) :
    ((takeawayPairs kts).map Prod.snd = kts.filter fun t => t != "") ∧
    (takeawayPairs kts).Pairwise (fun p q => p.1 < q.1) ∧
    ∀ p ∈ takeawayPairs kts, p.2 ≠ "" := by
  refine ⟨?_, ?_, ?_⟩
  · simpa [takeawayPairs, List.enum] using enumFrom_filter_snd kts 0
  · exact List.Pairwise.sublist (List.filter_sublist _) (pairwise_fst_lt_enumFrom 0 kts)
  · intro p hp
    have := List.of_mem_filter hp
    exact bne_iff_ne.mp this

/-- C4 witness: the amended theorem at the concrete list `["a", "", "b"]`. -/
theorem c4_amended_witness :
    (takeawayPairs ["a", "", "b"]).Pairwise (fun p q => p.1 < q.1) ∧
    (0, "a") ∈ takeawayPairs ["a", "", "b"] ∧ "a" ≠ "" :=
  ⟨(c4_amended ["a", "", "b"]).2.1,
   by decide,
   (c4_amended ["a", "", "b"]).2.2 (0, "a") (by decide)⟩

/-! ## C1: idempotence of re-importing a document -/

theorem hasStock_ensureStock (db : DB) (p : ParsedRec) (k : String × String)
    (h : hasStock db k = true) : hasStock (ensureStock db p) k = true := by
  unfold ensureStock
  split
  · exact h
  · simp only [hasStock] at h ⊢
    simp [List.any_append, h]

theorem hasStock_insertReport (db : DB) (p : ParsedRec) (k : String × String) :
    hasStock (insertReport db p) k = hasStock db k := rfl

theorem hasReport_ensureStock (db : DB) (p : ParsedRec) (k : String × String) (ts : Nat) :
    hasReport (ensureStock db p) k ts = hasReport db k ts := by
  unfold ensureStock
  split <;> rfl

theorem hasReport_insertReport (db : DB) (p : ParsedRec) (k : String × String) (ts : Nat)
    (h : hasReport db k ts = true) : hasReport (insertReport db p) k ts = true := by
  simp only [insertReport, hasReport] at h ⊢
  simp [List.any_append, h]

theorem hasStock_applyParsed (db : DB) (p : ParsedRec) (k : String × String)
    (h : hasStock db k = true) : hasStock (applyParsed db p).1 k = true := by
  unfold applyParsed
  split
  · exact hasStock_ensureStock db p k h
  · rw [hasStock_insertReport]
    exact hasStock_ensureStock db p k h

theorem hasReport_applyParsed (db : DB) (p : ParsedRec) (k : String × String) (ts : Nat)
    (h : hasReport db k ts = true) : hasReport (applyParsed db p).1 k ts = true := by
  unfold applyParsed
  split
  · rw [hasReport_ensureStock]
    exact h
  · exact hasReport_insertReport _ p k ts (by rw [hasReport_ensureStock]; exact h)

theorem hasStock_ensureStock_self (db : DB) (p : ParsedRec) :
    hasStock (ensureStock db p) (stockKeyOf p) = true := by
  unfold ensureStock
  split
  · assumption
  · simp [hasStock, List.any_append]

theorem applyParsed_establishes (db : DB) (p : ParsedRec) :
    hasStock (applyParsed db p).1 (stockKeyOf p) = true ∧
      hasReport (applyParsed db p).1 (stockKeyOf p) p.as_of = true := by
  unfold applyParsed
  split
  · exact ⟨hasStock_ensureStock_self db p, by assumption⟩
  · refine ⟨hasStock_ensureStock_self db p, ?_⟩
    simp [hasReport, insertReport, List.any_append, mkReportRow]

theorem applyParsed_existing (db : DB) (p : ParsedRec)
    (hs : hasStock db (stockKeyOf p) = true)
    (hr : hasReport db (stockKeyOf p) p.as_of = true) :
    applyParsed db p = (db, false) := by
  have h1 : ensureStock db p = db := by unfold ensureStock; rw [if_pos hs]
  unfold applyParsed
  rw [h1, if_pos hr]

theorem importRecord_skip (now : Nat) (db : DB) (item : Record) (p : ParsedRec)
    (hp : parseRecord now item = .ok (some p))
    (hs : hasStock db (stockKeyOf p) = true)
    (hr : hasReport db (stockKeyOf p) p.as_of = true) :
    importRecord now false db item = .ok (db, .skipped) := by
  simp [importRecord, hp, applyParsed_existing db p hs hr]

theorem importRecord_mono (now : Nat) (dry : Bool) (db db' : DB) (item : Record)
    (o : Outcome) (h : importRecord now dry db item = .ok (db', o)) :
    (∀ k, hasStock db k = true → hasStock db' k = true) ∧
      (∀ k ts, hasReport db k ts = true → hasReport db' k ts = true) := by
  cases hP : parseRecord now item with
  | error e => simp [importRecord, hP] at h
  | ok po =>
    cases po with
    | none =>
      simp only [importRecord, hP, Except.ok.injEq, Prod.mk.injEq] at h
      rw [← h.1]
      exact ⟨fun k hk => hk, fun k ts hk => hk⟩
    | some p =>
      by_cases hd : dry
      · simp only [importRecord, hP, if_pos hd, Except.ok.injEq, Prod.mk.injEq] at h
        rw [← h.1]
        exact ⟨fun k hk => hk, fun k ts hk => hk⟩
      · rcases happ : applyParsed db p with ⟨dbx, b⟩
        have hdb : db' = dbx := by
          cases b <;>
            simp only [importRecord, hP, if_neg hd, happ, Except.ok.injEq,
              Prod.mk.injEq] at h <;> exact h.1.symm
        subst hdb
        constructor
        · intro k hk
          have := hasStock_applyParsed db p k hk
          rwa [happ] at this
        · intro k ts hk
          have := hasReport_applyParsed db p k ts hk
          rwa [happ] at this

theorem importRecord_cases (now : Nat) (db db' : DB) (item : Record) (o : Outcome)
    (h : importRecord now false db item = .ok (db', o)) :
    (db' = db ∧ o = .parseFail ∧ parseRecord now item = .ok none) ∨
      (∃ p, parseRecord now item = .ok (some p) ∧
        hasStock db' (stockKeyOf p) = true ∧ hasReport db' (stockKeyOf p) p.as_of = true) := by
  cases hP : parseRecord now item with
  | error e => simp [importRecord, hP] at h
  | ok po =>
    cases po with
    | none =>
      left
      simp only [importRecord, hP, Except.ok.injEq, Prod.mk.injEq] at h
      exact ⟨h.1.symm, h.2.symm, rfl⟩
    | some p =>
      right
      refine ⟨p, rfl, ?_⟩
      rcases happ : applyParsed db p with ⟨dbx, b⟩
      have hdb : db' = dbx := by
        cases b <;>
          simp only [importRecord, hP, if_neg (Bool.false_ne_true ∘ id), happ] at h <;>
          · simp only [Except.ok.injEq, Prod.mk.injEq] at h
            exact h.1.symm
      subst hdb
      have := applyParsed_establishes db p
      rwa [happ] at this

theorem runDoc_mono (now : Nat) (dry : Bool) (doc : List Record) :
    ∀ db : DB,
      (∀ k, hasStock db k = true → hasStock (runDoc now dry db doc).db k = true) ∧
        (∀ k ts, hasReport db k ts = true → hasReport (runDoc now dry db doc).db k ts = true) := by
  induction doc with
  | nil => exact fun db => ⟨fun k hk => hk, fun k ts hk => hk⟩
  | cons item rest ih =>
    intro db
    cases hI : importRecord now dry db item with
    | error e =>
      simp only [runDoc, hI]
      exact ⟨fun k hk => hk, fun k ts hk => hk⟩
    | ok r =>
      rcases r with ⟨db', o⟩
      have hm := importRecord_mono now dry db db' item o hI
      have hr := ih db'
      simp only [runDoc, hI]
      exact ⟨fun k hk => hr.1 k (hm.1 k hk), fun k ts hk => hr.2 k ts (hm.2 k ts hk)⟩

theorem runDoc_idem (now : Nat) (doc : List Record) :
    ∀ db : DB,
      (runDoc now false (runDoc now false db doc).db doc).db = (runDoc now false db doc).db ∧
        (runDoc now false (runDoc now false db doc).db doc).counts.created = 0 ∧
        (runDoc now false (runDoc now false db doc).db doc).aborted =
          (runDoc now false db doc).aborted := by
  induction doc with
  | nil => exact fun db => ⟨rfl, rfl, rfl⟩
  | cons item rest ih =>
    intro db
    cases hI : importRecord now false db item with
    | error e =>
      cases e
      have h1 : runDoc now false db (item :: rest) = ⟨db, ⟨1, 0, 0⟩, true⟩ := by
        simp [runDoc, hI]
      rw [h1]
      simp [runDoc, hI]
    | ok r =>
      rcases r with ⟨db', o⟩
      have h1 : runDoc now false db (item :: rest) =
          ⟨(runDoc now false db' rest).db,
            addCounts (outCounts o) (runDoc now false db' rest).counts,
            (runDoc now false db' rest).aborted⟩ := by
        simp [runDoc, hI]
      -- in the second run the record is either parse-skipped again or key-skipped
      have h2 : ∃ o2, (o2 = Outcome.parseFail ∨ o2 = Outcome.skipped) ∧
          importRecord now false (runDoc now false db' rest).db item =
            .ok ((runDoc now false db' rest).db, o2) := by
        rcases importRecord_cases now db db' item o hI with ⟨_, _, hPn⟩ | ⟨p, hPs, hks, hkr⟩
        · exact ⟨.parseFail, Or.inl rfl, by simp [importRecord, hPn]⟩
        · refine ⟨.skipped, Or.inr rfl, ?_⟩
          have hks2 := (runDoc_mono now false rest db').1 _ hks
          have hkr2 := (runDoc_mono now false rest db').2 _ _ hkr
          exact importRecord_skip now _ item p hPs hks2 hkr2
      rcases h2 with ⟨o2, ho2, hI2⟩
      have hrest := ih db'
      rw [h1]
      simp only [runDoc, hI2]
      refine ⟨hrest.1, ?_, hrest.2.2⟩
      have : (outCounts o2).created = 0 := by
        rcases ho2 with rfl | rfl <;> rfl
      simp [addCounts, this, hrest.2.1]

/-- A record's parse result does not depend on the import instant when the
record carries a non-empty `Timestamp` value. -/
theorem parseRecord_now_indep (n1 n2 : Nat) (item : Record)
    (h1 : jgetD item "Timestamp" .jnull ≠ .jnull)
    (h2 : jgetD item "Timestamp" .jnull ≠ .jstr "") :
    parseRecord n1 item = parseRecord n2 item := by
  have hts : parse_timestamp (jgetD item "Timestamp" .jnull) n1 =
      parse_timestamp (jgetD item "Timestamp" .jnull) n2 := by
    cases hv : jgetD item "Timestamp" .jnull with
    | jnull => exact absurd hv h1
    | jstr s =>
      by_cases hs : s = ""
      · exact absurd (hv.trans (by rw [hs])) h2
      · simp [parse_timestamp, hs]
    | jnum q => rfl
    | jlist xs => rfl
  unfold parseRecord
  rw [hts]

/-- C1 amended: re-importing the same document at the same clock instant
leaves the persisted rows exactly as after the first import, creates 0
reports, and aborts at the same point; and a later import of a record whose
(stock, as_of_timestamp) key already exists is a strict no-op that writes
nothing — the store (reports, takeaways, EPS rows and stocks) is returned
unchanged with the record counted as skipped. The second run's skipped count
is the number of records that parse, which need not equal the first run's
created count (see the counterexample with a repeated record). -/
theorem c1_amended :
    (∀ (now : Nat) (db : DB) (doc : List Record),
      (runDoc now false (runDoc now false db doc).db doc).db = (runDoc now false db doc).db ∧
        (runDoc now false (runDoc now false db doc).db doc).counts.created = 0 ∧
        (runDoc now false (runDoc now false db doc).db doc).aborted =
          (runDoc now false db doc).aborted) ∧
    (∀ (now : Nat) (db : DB) (item : Record) (p : ParsedRec),
      parseRecord now item = .ok (some p) →
      hasStock db (stockKeyOf p) = true →
      hasReport db (stockKeyOf p) p.as_of = true →
      importRecord now false db item = .ok (db, .skipped)) ∧
    (∀ (n1 n2 : Nat) (item : Record),
      jgetD item "Timestamp" .jnull ≠ .jnull →
      jgetD item "Timestamp" .jnull ≠ .jstr "" →
      parseRecord n1 item = parseRecord n2 item) :=
  ⟨fun now db doc => runDoc_idem now doc db,
   fun now db item p hp hs hr => importRecord_skip now db item p hp hs hr,
   fun n1 n2 item h1 h2 => parseRecord_now_indep n1 n2 item h1 h2⟩

/-- The two-copy document used for the C1 count counterexample. -/
def c1_doc : List Record :=
  [[("Ticker", JVal.jstr "COP US"), ("Timestamp", JVal.jstr "2026-01-16_13-48"),
    ("Upside", JVal.jstr "0.2")],
   [("Ticker", JVal.jstr "COP US"), ("Timestamp", JVal.jstr "2026-01-16_13-48"),
    ("Upside", JVal.jstr "0.2")]]

/-- C1 counterexample: for a document containing the same record twice, the
first run creates N = 1 report but the second run skips 2 records, not N;
the rows themselves are unchanged by the second run. -/
theorem c1_counterexample :
    (runDoc 0 false emptyDB c1_doc).counts.created = 1 ∧
    (runDoc 0 false (runDoc 0 false emptyDB c1_doc).db c1_doc).counts.created = 0 ∧
    (runDoc 0 false (runDoc 0 false emptyDB c1_doc).db c1_doc).counts.skipped = 2 ∧
    (runDoc 0 false (runDoc 0 false emptyDB c1_doc).db c1_doc).counts.skipped ≠
      (runDoc 0 false emptyDB c1_doc).counts.created := by
  refine ⟨by decide, by decide, by decide, by decide⟩

/-- C1 witness: the hypothesis-bearing conjuncts of `c1_amended` discharged
at concrete inputs (a store already holding the record's keys, and a record
with an explicit timestamp). -/
theorem c1_amended_witness :
    (runDoc 7 false (runDoc 7 false emptyDB [[("Ticker", JVal.jstr "AAA US"),
        ("Timestamp", JVal.jstr "2026-01-16_13-48")]]).db
      [[("Ticker", JVal.jstr "AAA US"), ("Timestamp", JVal.jstr "2026-01-16_13-48")]]).counts.created = 0 ∧
    importRecord 0 false
        ⟨[⟨"COP", "US", "", "USD"⟩], [⟨"COP", "US", 1213724988, "", "", "", "", "", [],
          none, none, none, none, none⟩], [], []⟩
        [("Ticker", JVal.jstr "COP US"), ("Timestamp", JVal.jstr "2026-01-16_13-48")] =
      .ok (⟨[⟨"COP", "US", "", "USD"⟩], [⟨"COP", "US", 1213724988, "", "", "", "", "", [],
          none, none, none, none, none⟩], [], []⟩, .skipped) ∧
    parseRecord 3 [("Ticker", JVal.jstr "COP US"), ("Timestamp", JVal.jstr "2026-01-16_13-48")] =
      parseRecord 4 [("Ticker", JVal.jstr "COP US"), ("Timestamp", JVal.jstr "2026-01-16_13-48")] :=
  ⟨(c1_amended.1 7 emptyDB
      [[("Ticker", JVal.jstr "AAA US"), ("Timestamp", JVal.jstr "2026-01-16_13-48")]]).2.1,
   c1_amended.2.1 0 _ _
      { ticker := "COP", region := "US", company := "", currency := "USD",
        as_of := 1213724988, link := "", blurb := "", rating := "",
        analyst_team := "", report_subtitle := "", raw_text := [],
        price := none, price_objective := none, upside := none,
        average_daily_value := none, market_cap := none,
        takeaways := [], epsRows := [] }
      (by decide) (by decide) (by decide),
   c1_amended.2.2 3 4 _ (by decide) (by decide)⟩

/-! ## C5: per-record failure handling -/

/-- A record with a well-formed ticker and timestamp but a non-numeric
`Price`, followed by a fully well-formed record. -/
def c5_doc : List Record :=
  [[("Ticker", JVal.jstr "AAA US"), ("Timestamp", JVal.jstr "2026-01-16_13-48"),
    ("Price", JVal.jstr "abc")],
   [("Ticker", JVal.jstr "BBB US"), ("Timestamp", JVal.jstr "2026-01-16_13-48")]]

/-- C5 counterexample: a malformed number (`Price = "abc"`) does not merely
skip its record — the run aborts at that record: no rows are written, the
following well-formed record is never processed (`parsed` stays 1), and the
batch ends aborted. -/
theorem c5_counterexample :
    (runDoc 0 false emptyDB c5_doc).aborted = true ∧
    (runDoc 0 false emptyDB c5_doc).db.reports = [] ∧
    (runDoc 0 false emptyDB c5_doc).counts.parsed = 1 := by
  refine ⟨by decide, by decide, by decide⟩

/-- C5 amended: a malformed ticker (fewer than two whitespace tokens) or a
malformed timestamp is caught per record — that record contributes only to
the parsed count, writes nothing, and processing continues with the rest —
while a malformed number (non-numeric decimal such as `Price` or a winning
EPS value) is raised outside the per-record handler and aborts the
document's import at that record. -/
theorem c5_amended :
    (∀ (now : Nat) (dry : Bool) (db : DB) (item : Record) (rest : List Record),
      parseRecord now item = .ok none →
      runDoc now dry db (item :: rest) =
        ⟨(runDoc now dry db rest).db,
          addCounts ⟨1, 0, 0⟩ (runDoc now dry db rest).counts,
          (runDoc now dry db rest).aborted⟩) ∧
    (∀ (now : Nat) (item : Record),
      parse_ticker_region (jgetD item "Ticker" (.jstr "")) = none →
      parseRecord now item = .ok none) ∧
    (∀ (now : Nat) (item : Record) (tr : String × String),
      parse_ticker_region (jgetD item "Ticker" (.jstr "")) = some tr →
      parse_timestamp (jgetD item "Timestamp" .jnull) now = none →
      parseRecord now item = .ok none) ∧
    (∀ (now : Nat) (db : DB) (item : Record) (rest : List Record),
      parseRecord now item = .error () →
      runDoc now false db (item :: rest) = ⟨db, ⟨1, 0, 0⟩, true⟩) ∧
    parse_ticker_region (.jstr "COP") = none ∧
    to_decimal (.jstr "abc") = .error () := by
  refine ⟨?_, ?_, ?_, ?_, by decide, by decide⟩
  · intro now dry db item rest h
    have hI : importRecord now dry db item = .ok (db, .parseFail) := by
      simp [importRecord, h]
    simp [runDoc, hI, outCounts]
  · intro now item h
    simp [parseRecord, h]
  · intro now item tr h1 h2
    simp [parseRecord, h1, h2]
  · intro now db item rest h
    have hI : importRecord now false db item = .error () := by
      simp [importRecord, h]
    simp [runDoc, hI]

/-- C5 witness: the amended theorem's clauses at concrete records — a
one-token ticker record is skipped with the rest still processed, and a
bad-`Price` record aborts. -/
theorem c5_amended_witness :
    runDoc 0 false emptyDB
        [[("Ticker", JVal.jstr "COP")],
         [("Ticker", JVal.jstr "BBB US"), ("Timestamp", JVal.jstr "2026-01-16_13-48")]] =
      ⟨(runDoc 0 false emptyDB
          [[("Ticker", JVal.jstr "BBB US"), ("Timestamp", JVal.jstr "2026-01-16_13-48")]]).db,
        addCounts ⟨1, 0, 0⟩
          (runDoc 0 false emptyDB
            [[("Ticker", JVal.jstr "BBB US"), ("Timestamp", JVal.jstr "2026-01-16_13-48")]]).counts,
        (runDoc 0 false emptyDB
          [[("Ticker", JVal.jstr "BBB US"), ("Timestamp", JVal.jstr "2026-01-16_13-48")]]).aborted⟩ ∧
    parseRecord 0 [("Ticker", JVal.jstr "COP")] = .ok none ∧
    parseRecord 5 [("Ticker", JVal.jstr "AAA US"), ("Timestamp", JVal.jstr "bad-ts")] = .ok none ∧
    runDoc 0 false emptyDB
        [[("Ticker", JVal.jstr "AAA US"), ("Timestamp", JVal.jstr "2026-01-16_13-48"),
          ("Price", JVal.jstr "abc")]] =
      ⟨emptyDB, ⟨1, 0, 0⟩, true⟩ :=
  ⟨c5_amended.1 0 false emptyDB [("Ticker", JVal.jstr "COP")] _ (by decide),
   c5_amended.2.1 0 [("Ticker", JVal.jstr "COP")] (by decide),
   c5_amended.2.2.1 5 [("Ticker", JVal.jstr "AAA US"), ("Timestamp", JVal.jstr "bad-ts")]
     ("AAA", "US") (by decide) (by decide),
   c5_amended.2.2.2.1 0 emptyDB
     [("Ticker", JVal.jstr "AAA US"), ("Timestamp", JVal.jstr "2026-01-16_13-48"),
      ("Price", JVal.jstr "abc")] [] (by decide)⟩

/-! ## C9: identifier normalization -/

/-- Two records whose ticker/region differ only in case and whitespace, with
distinct timestamps. -/
def c9_doc : List Record :=
  [[("Ticker", JVal.jstr "cop us"), ("Timestamp", JVal.jstr "2026-01-16_13-48"),
    ("Currency", JVal.jstr " usd"), ("Company", JVal.jstr "ConocoPhillips")],
   [("Ticker", JVal.jstr " Cop  uS "), ("Timestamp", JVal.jstr "2026-01-17_13-48")]]

/-- C9: ticker, region and currency code are trimmed and uppercased at write
time (`" cop "` is stored as `COP`, `"us"` as `US`, `" usd"` as `USD`); a
record whose normalized stock key already exists creates no new stock row;
and concretely, two imported records whose ticker/region differ only in case
and whitespace resolve to one single stock row. -/
theorem c9_normalization :
    normalize_id " cop " = "COP" ∧
    normalize_id "us" = "US" ∧
    normalize_id " usd" = "USD" ∧
    (∀ (now : Nat) (db db' : DB) (item : Record) (p : ParsedRec) (o : Outcome),
      importRecord now false db item = .ok (db', o) →
      parseRecord now item = .ok (some p) →
      hasStock db (stockKeyOf p) = true →
      db'.stocks = db.stocks) ∧
    (runDoc 0 false emptyDB c9_doc).db.stocks = [⟨"COP", "US", "ConocoPhillips", "USD"⟩] ∧
    (runDoc 0 false emptyDB c9_doc).db.reports.length = 2 := by
  refine ⟨by decide, by decide, by decide, ?_, by decide, by decide⟩
  intro now db db' item p o h hp hs
  have h1 : ensureStock db p = db := by
    unfold ensureStock
    rw [if_pos hs]
  have hst : (applyParsed db p).1.stocks = db.stocks := by
    unfold applyParsed
    rw [h1]
    split <;> rfl
  rcases happ : applyParsed db p with ⟨dbx, b⟩
  have hdb : db' = dbx := by
    cases b <;>
      · simp only [importRecord, hp, happ, if_neg Bool.false_ne_true, Except.ok.injEq,
          Prod.mk.injEq] at h
        exact h.1.symm
  subst hdb
  rw [happ] at hst
  exact hst

/-- C9 witness: the no-new-stock clause of `c9_normalization` at a concrete
store already holding the normalized key. -/
theorem c9_normalization_witness :
    (⟨[⟨"COP", "US", "Old Name", "USD"⟩],
      [⟨"COP", "US", 1213724988, "", "", "", "", "", [], none, none, none, none, none⟩],
      [], []⟩ : DB).stocks = [⟨"COP", "US", "Old Name", "USD"⟩] ∧
    ∀ db' o, importRecord 0 false
        ⟨[⟨"COP", "US", "Old Name", "USD"⟩], [], [], []⟩
        [("Ticker", JVal.jstr " cop  Us"), ("Timestamp", JVal.jstr "2026-01-16_13-48")] =
          .ok (db', o) →
      db'.stocks = [⟨"COP", "US", "Old Name", "USD"⟩] :=
  ⟨rfl,
   fun db' o h =>
     c9_normalization.2.2.2.1 0 _ db' _
       { ticker := "cop", region := "Us", company := "", currency := "USD",
         as_of := 1213724988, link := "", blurb := "", rating := "",
         analyst_team := "", report_subtitle := "", raw_text := [],
         price := none, price_objective := none, upside := none,
         average_daily_value := none, market_cap := none,
         takeaways := [], epsRows := [] } o h (by decide) (by decide)⟩

/-! ## C10: existing stocks are never rewritten -/

theorem stocks_applyParsed_grow (db : DB) (p : ParsedRec) :
    ∃ tail, (applyParsed db p).1.stocks = db.stocks ++ tail := by
  unfold applyParsed
  split <;>
  · show ∃ tail, (ensureStock db p).stocks = db.stocks ++ tail
    unfold ensureStock
    split
    · exact ⟨[], (List.append_nil _).symm⟩
    · exact ⟨_, rfl⟩

theorem stocks_importRecord_grow (now : Nat) (dry : Bool) (db db' : DB) (item : Record)
    (o : Outcome) (h : importRecord now dry db item = .ok (db', o)) :
    ∃ tail, db'.stocks = db.stocks ++ tail := by
  cases hP : parseRecord now item with
  | error e => simp [importRecord, hP] at h
  | ok po =>
    cases po with
    | none =>
      simp only [importRecord, hP, Except.ok.injEq, Prod.mk.injEq] at h
      exact ⟨[], by rw [← h.1, List.append_nil]⟩
    | some p =>
      by_cases hd : dry
      · simp only [importRecord, hP, if_pos hd, Except.ok.injEq, Prod.mk.injEq] at h
        exact ⟨[], by rw [← h.1, List.append_nil]⟩
      · rcases happ : applyParsed db p with ⟨dbx, b⟩
        have hdb : db' = dbx := by
          cases b <;>
            · simp only [importRecord, hP, if_neg hd, happ, Except.ok.injEq,
                Prod.mk.injEq] at h
              exact h.1.symm
        subst hdb
        have := stocks_applyParsed_grow db p
        rwa [happ] at this

/-- C10: for every import run, the stock table after the run is the stock
table before the run with zero or more new rows appended — every stock row
that existed at import time is still present with its company name and
currency code (indeed all fields) byte-for-byte unchanged; later imports
never overwrite them. -/
theorem c10_stock_fields_preserved (now : Nat) (dry : Bool) (doc : List Record) :
    ∀ db : DB, ∃ tail, (runDoc now dry db doc).db.stocks = db.stocks ++ tail := by
  induction doc with
  | nil => exact fun db => ⟨[], (List.append_nil _).symm⟩
  | cons item rest ih =>
    intro db
    cases hI : importRecord now dry db item with
    | error e =>
      simp only [runDoc, hI]
      exact ⟨[], (List.append_nil _).symm⟩
    | ok r =>
      rcases r with ⟨db', o⟩
      rcases stocks_importRecord_grow now dry db db' item o hI with ⟨t1, ht1⟩
      rcases ih db' with ⟨t2, ht2⟩
      simp only [runDoc, hI]
      exact ⟨t1 ++ t2, by rw [ht2, ht1, List.append_assoc]⟩

/-! ## Shared helpers for the view claims -/

theorem mem_take_or_length (x : α) (l : List α) (n : Nat) (h : x ∈ l) :
    x ∈ l.take n ∨ (l.take n).length = n := by
  by_cases hl : l.length ≤ n
  · left
    rw [List.take_of_length_le hl]
    exact h
  · right
    rw [List.length_take]
    exact Nat.min_eq_left (Nat.le_of_lt (Nat.lt_of_not_le hl))

/-! ## C6: top-upside ranking -/

/-- C6 counterexample: a report dated in the future of `now` (timestamp 110
with `now = 100`, window 7 days so `start = 93`) is counted by the code's
ranking — the filter has no upper bound at `now` — while under the claim's
window `[now − window, now]` stock B has no qualifying report and is
excluded, so the two disagree at this input. -/
theorem c6_counterexample :
    top_upside 93 10 [⟨2, "B"⟩] [⟨2, 110, "", some ((3 : ℚ)/10), none, none⟩] =
      [(⟨2, "B"⟩, (3 : ℚ)/10)] ∧
    specWindow_top_upside 100 7 10 [⟨2, "B"⟩] [⟨2, 110, "", some ((3 : ℚ)/10), none, none⟩] =
      [] ∧
    top_upside (100 - 7) 10 [⟨2, "B"⟩] [⟨2, 110, "", some ((3 : ℚ)/10), none, none⟩] ≠
      specWindow_top_upside 100 7 10 [⟨2, "B"⟩]
        [⟨2, 110, "", some ((3 : ℚ)/10), none, none⟩] := by
  refine ⟨by decide, by decide, by decide⟩

/-- C6 amended: the ranking metric of a returned stock is the maximum upside
over exactly its reports with non-null upside and `as_of_timestamp ≥ now −
window` (the filter has no upper bound at `now`); stocks with no such report
are excluded; every annotated stock is returned unless the limit cuts it;
the result is sorted descending by the metric and has at most `limit`
entries; and the claim's concrete example holds (A returned with max 0.20,
B with its only report 10 days old excluded). -/
theorem c6_amended :
    (∀ (start limit : Nat) (stocks : List VStock) (reports : List VReport)
        (s : VStock) (m : ℚ),
      (s, m) ∈ top_upside start limit stocks reports →
      s ∈ stocks ∧ max_upside start reports s.id = some m) ∧
    (∀ (start limit : Nat) (stocks : List VStock) (reports : List VReport)
        (s : VStock) (m : ℚ),
      s ∈ stocks → max_upside start reports s.id = some m →
      (s, m) ∈ top_upside start limit stocks reports ∨
        (top_upside start limit stocks reports).length = limit) ∧
    (∀ (start limit : Nat) (stocks : List VStock) (reports : List VReport),
      (top_upside start limit stocks reports).Pairwise fun a b => b.2 ≤ a.2) ∧
    (∀ (start limit : Nat) (stocks : List VStock) (reports : List VReport),
      (top_upside start limit stocks reports).length ≤ limit) ∧
    top_upside 93 10 [⟨1, "A"⟩, ⟨2, "B"⟩]
        [⟨1, 98, "", some ((1 : ℚ)/20), none, none⟩,
         ⟨1, 99, "", some ((1 : ℚ)/5), none, none⟩,
         ⟨2, 90, "", some ((3 : ℚ)/10), none, none⟩] =
      [(⟨1, "A"⟩, (1 : ℚ)/5)] := by
  refine ⟨?_, ?_, ?_, ?_, by decide⟩
  · intro start limit stocks reports s m h
    have h1 := List.take_subset _ _ h
    have h2 := (mem_sortBy _ _ _).mp h1
    rcases List.mem_filterMap.mp h2 with ⟨s', hs', hf⟩
    rcases Option.map_eq_some'.mp hf with ⟨m', hm', heq⟩
    have hss : s' = s := congrArg Prod.fst heq
    have hmm : m' = m := congrArg Prod.snd heq
    subst hss
    subst hmm
    exact ⟨hs', hm'⟩
  · intro start limit stocks reports s m hs hm
    have hx : (s, m) ∈ stocks.filterMap
        (fun s => (max_upside start reports s.id).map fun m => (s, m)) :=
      List.mem_filterMap.mpr ⟨s, hs, by rw [hm]; rfl⟩
    exact mem_take_or_length _ _ limit ((mem_sortBy _ _ _).mpr hx)
  · intro start limit stocks reports
    have hp := pairwise_sortBy (fun a b : VStock × ℚ => decide (b.2 ≤ a.2))
      (fun a b => by
        rcases le_total b.2 a.2 with h | h
        · exact Or.inl (decide_eq_true h)
        · exact Or.inr (decide_eq_true h))
      (fun a b c hab hbc =>
        decide_eq_true (le_trans (of_decide_eq_true hbc) (of_decide_eq_true hab)))
      (stocks.filterMap fun s => (max_upside start reports s.id).map fun m => (s, m))
    exact ((hp.sublist (List.take_sublist _ _)).imp fun h => of_decide_eq_true h)
  · intro start limit stocks reports
    exact List.length_take_le _ _

/-- C6 witness: the hypothesis-bearing clauses of `c6_amended` at the
concrete A/B example. -/
theorem c6_amended_witness :
    ((⟨1, "A"⟩ : VStock) ∈ [(⟨1, "A"⟩ : VStock), ⟨2, "B"⟩] ∧
      max_upside 93 [⟨1, 98, "", some ((1 : ℚ)/20), none, none⟩,
        ⟨1, 99, "", some ((1 : ℚ)/5), none, none⟩,
        ⟨2, 90, "", some ((3 : ℚ)/10), none, none⟩] 1 = some ((1 : ℚ)/5)) ∧
    ((⟨1, "A"⟩, (1 : ℚ)/5) ∈ top_upside 93 10 [⟨1, "A"⟩, ⟨2, "B"⟩]
        [⟨1, 98, "", some ((1 : ℚ)/20), none, none⟩,
         ⟨1, 99, "", some ((1 : ℚ)/5), none, none⟩,
         ⟨2, 90, "", some ((3 : ℚ)/10), none, none⟩] ∨
      (top_upside 93 10 [⟨1, "A"⟩, ⟨2, "B"⟩]
        [⟨1, 98, "", some ((1 : ℚ)/20), none, none⟩,
         ⟨1, 99, "", some ((1 : ℚ)/5), none, none⟩,
         ⟨2, 90, "", some ((3 : ℚ)/10), none, none⟩]).length = 10) :=
  ⟨c6_amended.1 93 10 [⟨1, "A"⟩, ⟨2, "B"⟩]
      [⟨1, 98, "", some ((1 : ℚ)/20), none, none⟩,
       ⟨1, 99, "", some ((1 : ℚ)/5), none, none⟩,
       ⟨2, 90, "", some ((3 : ℚ)/10), none, none⟩] ⟨1, "A"⟩ ((1 : ℚ)/5) (by decide),
   c6_amended.2.1 93 10 [⟨1, "A"⟩, ⟨2, "B"⟩]
      [⟨1, 98, "", some ((1 : ℚ)/20), none, none⟩,
       ⟨1, 99, "", some ((1 : ℚ)/5), none, none⟩,
       ⟨2, 90, "", some ((3 : ℚ)/10), none, none⟩] ⟨1, "A"⟩ ((1 : ℚ)/5)
      (by decide) (by decide)⟩

/-! ## C7: downgrade-event detection -/

theorem foldl_pick_mem (xs : List VReport) :
    ∀ x : VReport, xs.foldl (fun m y => if m.ts < y.ts then y else m) x ∈ x :: xs := by
  induction xs with
  | nil => intro x; exact List.mem_cons_self x []
  | cons y ys ih =>
    intro x
    have h := ih (if x.ts < y.ts then y else x)
    simp only [List.foldl_cons]
    rcases List.mem_cons.mp h with h1 | h1
    · by_cases hxy : x.ts < y.ts
      · rw [if_pos hxy] at h1 ⊢
        rw [h1]
        exact List.mem_cons_of_mem x (List.mem_cons_self y ys)
      · rw [if_neg hxy] at h1 ⊢
        rw [h1]
        exact List.mem_cons_self x _
    · exact List.mem_cons_of_mem x (List.mem_cons_of_mem y h1)

theorem latestOf_mem (l : List VReport) (x : VReport) (h : latestOf l = some x) : x ∈ l := by
  cases l with
  | nil => cases h
  | cons a as =>
    simp only [latestOf, Option.some.injEq] at h
    rw [← h]
    exact foldl_pick_mem as a

/-- C7: the downgrade view returns exactly reports rated `UNDERPERFORM`
whose previous rating (that of the same stock's report with the greatest
strictly earlier timestamp, defaulting to the empty string which matches
nothing) is `BUY` or `NEUTRAL` — so every returned report has a strictly
earlier report of the same stock; every qualifying report is returned unless
the limit of 5 cuts it; the result is sorted descending by timestamp with at
most 5 entries; and the claim's concrete examples hold (BUY then
UNDERPERFORM is returned, UNDERPERFORM then UNDERPERFORM is not). -/
theorem c7_downgrades :
    (∀ (reports : List VReport) (r : VReport), r ∈ recent_downgrades reports →
      r ∈ reports ∧ r.rating = "UNDERPERFORM" ∧
        (prev_rating reports r = "BUY" ∨ prev_rating reports r = "NEUTRAL") ∧
        ∃ x ∈ reports, x.sid = r.sid ∧ x.ts < r.ts) ∧
    (∀ (reports : List VReport) (r : VReport),
      r ∈ reports → r.rating = "UNDERPERFORM" →
      (prev_rating reports r = "BUY" ∨ prev_rating reports r = "NEUTRAL") →
      r ∈ recent_downgrades reports ∨ (recent_downgrades reports).length = 5) ∧
    (∀ reports : List VReport,
      (recent_downgrades reports).Pairwise fun a b => b.ts ≤ a.ts) ∧
    (∀ reports : List VReport, (recent_downgrades reports).length ≤ 5) ∧
    recent_downgrades
        [⟨1, 1, "BUY", none, none, none⟩, ⟨1, 2, "UNDERPERFORM", none, none, none⟩] =
      [⟨1, 2, "UNDERPERFORM", none, none, none⟩] ∧
    recent_downgrades
        [⟨1, 1, "UNDERPERFORM", none, none, none⟩,
         ⟨1, 2, "UNDERPERFORM", none, none, none⟩] = [] := by
  refine ⟨?_, ?_, ?_, ?_, by decide, by decide⟩
  · intro reports r h
    have h1 := List.take_subset _ _ h
    have h2 := (mem_sortBy _ _ _).mp h1
    have hmem := List.mem_of_mem_filter h2
    have hpred := List.of_mem_filter h2
    simp only [Bool.and_eq_true, Bool.or_eq_true, beq_iff_eq] at hpred
    rcases hpred with ⟨hrat, hprev⟩
    have hne : prev_rating reports r ≠ "" := by
      rcases hprev with h | h <;> rw [h] <;> decide
    cases hl : latestOf (prevCandidates reports r) with
    | none =>
      exact absurd (by simp [prev_rating, hl]) hne
    | some x =>
      have hx := latestOf_mem _ _ hl
      have hxmem := List.mem_of_mem_filter hx
      have hxpred := List.of_mem_filter hx
      simp only [Bool.and_eq_true, beq_iff_eq, decide_eq_true_eq] at hxpred
      exact ⟨hmem, hrat, hprev, x, hxmem, hxpred.1, hxpred.2⟩
  · intro reports r hmem hrat hprev
    have hx : r ∈ reports.filter fun r =>
        r.rating == "UNDERPERFORM" &&
          (prev_rating reports r == "BUY" || prev_rating reports r == "NEUTRAL") := by
      refine List.mem_filter.mpr ⟨hmem, ?_⟩
      simp only [Bool.and_eq_true, Bool.or_eq_true, beq_iff_eq]
      exact ⟨hrat, hprev⟩
    exact mem_take_or_length _ _ 5 ((mem_sortBy _ _ _).mpr hx)
  · intro reports
    have hp := pairwise_sortBy (fun a b : VReport => decide (b.ts ≤ a.ts))
      (fun a b => by
        rcases Nat.le_total b.ts a.ts with h | h
        · exact Or.inl (decide_eq_true h)
        · exact Or.inr (decide_eq_true h))
      (fun a b c hab hbc =>
        decide_eq_true (Nat.le_trans (of_decide_eq_true hbc) (of_decide_eq_true hab)))
      (reports.filter fun r =>
        r.rating == "UNDERPERFORM" &&
          (prev_rating reports r == "BUY" || prev_rating reports r == "NEUTRAL"))
    exact ((hp.sublist (List.take_sublist _ _)).imp fun h => of_decide_eq_true h)
  · intro reports
    exact List.length_take_le _ _

/-- C7 witness: the hypothesis-bearing clauses of `c7_downgrades` at the
BUY-then-UNDERPERFORM example. -/
theorem c7_downgrades_witness :
    ((⟨1, 2, "UNDERPERFORM", none, none, none⟩ : VReport) ∈
        ([⟨1, 1, "BUY", none, none, none⟩,
          ⟨1, 2, "UNDERPERFORM", none, none, none⟩] : List VReport) ∧
      (⟨1, 2, "UNDERPERFORM", none, none, none⟩ : VReport).rating = "UNDERPERFORM" ∧
      (prev_rating [⟨1, 1, "BUY", none, none, none⟩,
          ⟨1, 2, "UNDERPERFORM", none, none, none⟩]
          ⟨1, 2, "UNDERPERFORM", none, none, none⟩ = "BUY" ∨
        prev_rating [⟨1, 1, "BUY", none, none, none⟩,
          ⟨1, 2, "UNDERPERFORM", none, none, none⟩]
          ⟨1, 2, "UNDERPERFORM", none, none, none⟩ = "NEUTRAL") ∧
      ∃ x ∈ ([⟨1, 1, "BUY", none, none, none⟩,
          ⟨1, 2, "UNDERPERFORM", none, none, none⟩] : List VReport),
        x.sid = 1 ∧ x.ts < 2) :=
  c7_downgrades.1 [⟨1, 1, "BUY", none, none, none⟩, ⟨1, 2, "UNDERPERFORM", none, none, none⟩]
    ⟨1, 2, "UNDERPERFORM", none, none, none⟩ (by decide)

/-! ## C8: price time series -/

/-- One hundred qualifying reports of stock 1, supplied in reverse
chronological order. -/
def c8_reports : List VReport :=
  ((List.range 100).reverse).map fun i => ⟨1, i, "", none, some (i : ℚ), none⟩

/-- C8: the price series maps each requested stock to the ordered-by-
ascending-timestamp sequence of (timestamp, price, price objective) points of
its reports from the start instant, excluding points with both values null,
capped to the chronologically last `CHART_MAX_POINTS = 60` points (the
returned list is a tail of the full chronological sequence, ascending, of
length at most 60); concretely a stock with 100 qualifying points yields
exactly the last 60 in ascending time order. -/
theorem c8_price_series :
    (∀ (ids : List Nat) (start : Nat) (reports : List VReport),
      (build_price_series ids start reports).map Prod.fst = ids) ∧
    (∀ (ids : List Nat) (start : Nat) (reports : List VReport) (sid : Nat)
        (pts : List (Nat × Option ℚ × Option ℚ)),
      (sid, pts) ∈ build_price_series ids start reports →
      pts.length ≤ CHART_MAX_POINTS ∧
        (∃ pre, seriesPoints start reports sid = pre ++ pts) ∧
        pts.Pairwise (fun a b => a.1 ≤ b.1) ∧
        ∀ q ∈ pts, ∃ r ∈ reports, r.sid = sid ∧ start ≤ r.ts ∧
          ¬(r.price = none ∧ r.price_objective = none) ∧
          q = (r.ts, r.price, r.price_objective)) ∧
    build_price_series [1] 0 c8_reports =
      [(1, ((List.range 100).drop 40).map fun i => ((i : Nat), some (i : ℚ), none))] := by
  refine ⟨?_, ?_, by decide⟩
  · intro ids start reports
    simp only [build_price_series, List.map_map]
    show List.map (fun sid => sid) ids = ids
    exact List.map_id ids
  · intro ids start reports sid pts h
    rcases List.mem_map.mp h with ⟨sid', hsid', heq⟩
    have hs1 : sid' = sid := congrArg Prod.fst heq
    subst hs1
    have hpts : pts =
        (if CHART_MAX_POINTS < (seriesPoints start reports sid').length then
          (seriesPoints start reports sid').drop
            ((seriesPoints start reports sid').length - CHART_MAX_POINTS)
        else seriesPoints start reports sid') := (congrArg Prod.snd heq).symm
    have hsorted : (seriesPoints start reports sid').Pairwise fun a b => a.1 ≤ b.1 := by
      have hp := pairwise_sortBy (fun a b : VReport => decide (a.ts ≤ b.ts))
        (fun a b => by
          rcases Nat.le_total a.ts b.ts with h | h
          · exact Or.inl (decide_eq_true h)
          · exact Or.inr (decide_eq_true h))
        (fun a b c hab hbc =>
          decide_eq_true (Nat.le_trans (of_decide_eq_true hab) (of_decide_eq_true hbc)))
        (reports.filter fun r =>
          r.sid == sid' && decide (start ≤ r.ts) &&
            !(r.price == none && r.price_objective == none))
      exact List.Pairwise.map _ (fun a b hab => of_decide_eq_true hab) hp
    have hsuffix : ∃ pre, seriesPoints start reports sid' = pre ++ pts := by
      rw [hpts]
      split
      · exact ⟨_, (List.take_append_drop _ _).symm⟩
      · exact ⟨[], rfl⟩
    refine ⟨?_, hsuffix, ?_, ?_⟩
    · rw [hpts]
      split
      · rw [List.length_drop]
        omega
      · omega
    · rcases hsuffix with ⟨pre, hpre⟩
      have : List.Sublist pts (pre ++ pts) := List.sublist_append_right pre pts
      rw [← hpre] at this
      exact hsorted.sublist this
    · intro q hq
      rcases hsuffix with ⟨pre, hpre⟩
      have hq2 : q ∈ seriesPoints start reports sid' := by
        rw [hpre]
        exact List.mem_append.mpr (Or.inr hq)
      rcases List.mem_map.mp hq2 with ⟨r, hr, hrq⟩
      have hr2 := (mem_sortBy _ _ _).mp hr
      have hrmem := List.mem_of_mem_filter hr2
      have hrpred := List.of_mem_filter hr2
      simp only [Bool.and_eq_true, beq_iff_eq, decide_eq_true_eq] at hrpred
      refine ⟨r, hrmem, hrpred.1.1, hrpred.1.2, ?_, hrq.symm⟩
      intro hnn
      rcases hrpred with ⟨-, hb⟩
      rw [hnn.1, hnn.2] at hb
      simp at hb

/-- C8 witness: the capped-tail clause of `c8_price_series` at the
100-report example. -/
theorem c8_price_series_witness :
    (((List.range 100).drop 40).map fun i =>
        ((i : Nat), some (i : ℚ), (none : Option ℚ))).length ≤ CHART_MAX_POINTS ∧
      (∃ pre, seriesPoints 0 c8_reports 1 =
        pre ++ ((List.range 100).drop 40).map fun i =>
          ((i : Nat), some (i : ℚ), (none : Option ℚ))) :=
  let h := c8_price_series.2.1 [1] 0 c8_reports 1
    (((List.range 100).drop 40).map fun i => ((i : Nat), some (i : ℚ), (none : Option ℚ)))
    (by rw [c8_price_series.2.2]; exact List.mem_cons_self _ [])
  ⟨h.1, h.2.1⟩

end StockAnalysis
